import Mathlib

/-!
Shallow embedding of the PopART marketplace app's data-management logic:
the local submission store (save/load of `SubmittedCollection` records under
the single storage key), the marketplace merge + rarity filter, the two-tier
detail resolution, the submission form validation, and the delete flow.

Machine-level concerns (AsyncStorage I/O, JSON text) are modelled at the
value level: the persisted blob is either absent, a string that fails to
parse, a parsed non-array value, or a parsed array of stored records; a
stored record's `images` field is optional, matching the schema evolution
the code defends against.
-/

namespace PopArt

/-- Rarity enum, from the `Rarity` union type shared by all screens. -/
inductive Rarity where
  | Common
  | Uncommon
  | Rare
  | Epic
  | Legendary
deriving DecidableEq, Repr

/-- In-memory user submission after load normalisation
(`SubmittedCollection` in my-collections.tsx: `images` always an array). -/
structure SubmittedCollection where
  id : String
  title : String
  description : String
  rarity : Rarity
  imageUri : String
  images : List String
  status : String
  createdAt : String
deriving DecidableEq, Repr

/-- A record as it sits in the serialized blob: `images` may be absent
(older stored records lack the field, or it is not an array). -/
structure StoredRecord where
  id : String
  title : String
  description : String
  rarity : Rarity
  imageUri : String
  images : Option (List String)
  status : String
  createdAt : String
deriving DecidableEq, Repr

/-- Marketplace display record (`Collection` in index.tsx). -/
structure Collection where
  id : String
  title : String
  creator : String
  rarity : Rarity
  items : Nat
  theme : String
  imageUrl : String
deriving DecidableEq, Repr

/-- Seed record as typed in the detail screens (`SeedCollection`). -/
structure SeedCollection where
  id : String
  title : String
  creator : String
  rarity : Rarity
  theme : String
  imageUrl : String
  items : Nat
deriving DecidableEq, Repr

/-- The value found under the storage key `submittedCollections`:
absent key, a blob JSON.parse throws on, a parsed value that is not an
array, or a parsed array of records. -/
inductive StoredBlob where
  | absent
  | malformed
  | nonArray
  | arr (rs : List StoredRecord)
deriving DecidableEq, Repr

/-- Serialization of one in-memory record (JSON.stringify writes every
field, so `images` is always present in the output). -/
def encodeRecord (c : SubmittedCollection) : StoredRecord :=
  ⟨c.id, c.title, c.description, c.rarity, c.imageUri, some c.images,
   c.status, c.createdAt⟩

/-- Read-side normalisation used by my-collections.tsx and the detail
screens: `{...c, images: Array.isArray(c.images) ? c.images : []}`. -/
def decodeRecord (r : StoredRecord) : SubmittedCollection :=
  ⟨r.id, r.title, r.description, r.rarity, r.imageUri, r.images.getD [],
   r.status, r.createdAt⟩

/-- `AsyncStorage.setItem(STORAGE_KEY, JSON.stringify(S))`: the whole
sequence is serialized as one array blob. -/
def saveCollections (S : List SubmittedCollection) : StoredBlob :=
  .arr (S.map encodeRecord)

/-- `loadCollections` in my-collections.tsx: absent key, parse failure and
non-array all yield the empty list; an array is normalised per record. -/
def loadCollections : StoredBlob → List SubmittedCollection
  | .absent => []
  | .malformed => []
  | .nonArray => []
  | .arr rs => rs.map decodeRecord

/-- `loadSubmitted` in contributor-dashboard.tsx: same soft-fail shape but
the parsed records are stored as-is, with no `images` normalisation. -/
def loadSubmitted : StoredBlob → List StoredRecord
  | .absent => []
  | .malformed => []
  | .nonArray => []
  | .arr rs => rs

/-- The per-record mapping inside `loadUserCollections` in index.tsx. -/
def toMarketCard (c : StoredRecord) : Collection :=
  ⟨c.id, c.title, "You", c.rarity, 1, c.description, c.imageUri⟩

/-- `loadUserCollections` in index.tsx: maps each stored submission to a
marketplace display record; all failures yield the empty list. -/
def loadUserCollections : StoredBlob → List Collection
  | .absent => []
  | .malformed => []
  | .nonArray => []
  | .arr rs => rs.map toMarketCard

/-- C1: saving a sequence of submissions and loading it back through the
my-collections loader reconstructs the sequence exactly, and a stored
record whose serialized form lacks the `images` field is reconstructed
with `images` equal to the empty sequence. -/
theorem save_load_roundtrip :
    (∀ S : List SubmittedCollection, loadCollections (saveCollections S) = S) ∧
    (∀ r : StoredRecord, r.images = none → (decodeRecord r).images = []) := by
  constructor
  · intro S
    show (S.map encodeRecord).map decodeRecord = S
    rw [List.map_map]
    have h : decodeRecord ∘ encodeRecord = id := funext fun c => rfl
    rw [h, List.map_id]
  · intro r h
    simp [decodeRecord, h]

/-- C1 witness: the round trip evaluated on a concrete one-record sequence,
and the `images` default evaluated on a concrete legacy record. -/
theorem save_load_roundtrip_spot :
    loadCollections (saveCollections
        [⟨"10", "T", "D", .Rare, "u", ["a", "b"], "pending", "t0"⟩]) =
      [⟨"10", "T", "D", .Rare, "u", ["a", "b"], "pending", "t0"⟩] ∧
    (decodeRecord ⟨"10", "T", "D", .Rare, "u", none, "pending", "t0"⟩).images = [] :=
  ⟨save_load_roundtrip.1 _, save_load_roundtrip.2 _ rfl⟩

/-- The static seed data bundled in index.tsx (`seedCollections`). -/
def seedCollections : List Collection :=
  [⟨"1", "Neon City Dreams", "ArtByNova", .Epic, 12,
    "Cyberpunk cityscapes and neon characters.",
    "https://images.pexels.com/photos/3404200/pexels-photo-3404200.jpeg?auto=compress&cs=tinysrgb&w=800"⟩,
   ⟨"2", "Forest Spirits", "WillowSketch", .Rare, 18,
    "Magical creatures hidden in ancient woods.",
    "https://images.pexels.com/photos/15286/pexels-photo.jpg?auto=compress&cs=tinysrgb&w=800"⟩,
   ⟨"3", "Pixel Pals", "RetroRaccoon", .Common, 24,
    "Cute pixel pets and tiny worlds.",
    "https://images.pexels.com/photos/1293261/pexels-photo-1293261.jpeg?auto=compress&cs=tinysrgb&w=800"⟩,
   ⟨"4", "Cosmic Cards", "StellarInk", .Legendary, 8,
    "Galaxy-inspired characters and tarot-style cards.",
    "https://images.pexels.com/photos/2150/sky-space-dark-galaxy.jpg?auto=compress&cs=tinysrgb&w=800"⟩]

/-- `allCollections` in HomeScreen: `[...userCollections, ...seedCollections]`. -/
def allCollections (user : List Collection) : List Collection :=
  user ++ seedCollections

/-- The selected filter chip: `"All" | Rarity`. -/
inductive RarityFilter where
  | all
  | only (r : Rarity)
deriving DecidableEq, Repr

/-- `filteredCollections` in HomeScreen: the full merged list for "All",
otherwise `allCollections.filter(c => c.rarity === selectedFilter)`. -/
def filteredCollections (sel : RarityFilter) (user : List Collection) :
    List Collection :=
  match sel with
  | .all => allCollections user
  | .only r => (allCollections user).filter (fun c => decide (c.rarity = r))

/-- C2: the merge puts the user items first and the seed items after in
their bundled order; filtering by "All" is the identity on the merged
sequence, and filtering by a rarity `r` yields exactly the order-preserving
subsequence of elements of rarity `r`. -/
theorem marketplace_merge_filter (user : List Collection) (r : Rarity) :
    allCollections user = user ++ seedCollections ∧
    filteredCollections .all user = allCollections user ∧
    filteredCollections (.only r) user =
      (allCollections user).filter (fun c => decide (c.rarity = r)) ∧
    (filteredCollections (.only r) user).Sublist (allCollections user) ∧
    ∀ c, c ∈ filteredCollections (.only r) user ↔
      c ∈ allCollections user ∧ c.rarity = r := by
  refine ⟨rfl, rfl, rfl, List.filter_sublist _, fun c => ?_⟩
  simp [filteredCollections, List.mem_filter]

/-- The seed list as typed in the detail screens (same four records). -/
def detailSeeds : List SeedCollection :=
  [⟨"1", "Neon City Dreams", "ArtByNova", .Epic,
    "Cyberpunk cityscapes and neon characters.",
    "https://images.pexels.com/photos/3404200/pexels-photo-3404200.jpeg?auto=compress&cs=tinysrgb&w=800", 12⟩,
   ⟨"2", "Forest Spirits", "WillowSketch", .Rare,
    "Magical creatures hidden in ancient woods.",
    "https://images.pexels.com/photos/15286/pexels-photo.jpg?auto=compress&cs=tinysrgb&w=800", 18⟩,
   ⟨"3", "Pixel Pals", "RetroRaccoon", .Common,
    "Cute pixel pets and tiny worlds.",
    "https://images.pexels.com/photos/1293261/pexels-photo-1293261.jpeg?auto=compress&cs=tinysrgb&w=800", 24⟩,
   ⟨"4", "Cosmic Cards", "StellarInk", .Legendary,
    "Galaxy-inspired characters and tarot-style cards.",
    "https://images.pexels.com/photos/2150/sky-space-dark-galaxy.jpg?auto=compress&cs=tinysrgb&w=800", 8⟩]

/-- The duck-typed tagged union `{type:"user"}|{type:"seed"}` used by the
detail screens. -/
inductive LoadedCollection where
  | user (c : SubmittedCollection)
  | seed (s : SeedCollection)
deriving DecidableEq, Repr

/-- The normalised user list the detail screens search
(`parsed.map(c => ({...c, images: Array.isArray(c.images) ? c.images : []}))`). -/
def userRecordsOf (rs : List StoredRecord) : List SubmittedCollection :=
  rs.map decodeRecord

/-- The two-tier lookup: `normalised.find(c => c.id === String(id))`, then
`seedCollections.find(c => c.id === String(id))`, else null. -/
def resolveDetail (user : List SubmittedCollection) (i : String) :
    Option LoadedCollection :=
  match user.find? (fun c => decide (c.id = i)) with
  | some c => some (.user c)
  | none =>
    match detailSeeds.find? (fun s => decide (s.id = i)) with
    | some s => some (.seed s)
    | none => none

/-- The detail screen's whole load effect: an absent key skips straight to
the seed lookup; a blob that fails to parse, or parses to a value with no
`.map`, lands in the catch block which sets the collection to null without
consulting the seed list. -/
def detailLoad : StoredBlob → String → Option LoadedCollection
  | .absent, i => resolveDetail [] i
  | .malformed, _ => none
  | .nonArray, _ => none
  | .arr rs, i => resolveDetail (userRecordsOf rs) i

/-- C3: detail resolution returns the user-tagged variant whenever some
loaded user record has the requested id (also when a seed record shares
it); falls back to the seed-tagged variant when no user record matches but
a seed record does; and returns "not found" when the id is in neither. -/
theorem detail_resolution (rs : List StoredRecord) (i : String) :
    ((∃ c ∈ userRecordsOf rs, c.id = i) →
      ∃ c, detailLoad (.arr rs) i = some (.user c) ∧ c.id = i ∧
        c ∈ userRecordsOf rs) ∧
    ((∀ c ∈ userRecordsOf rs, c.id ≠ i) → (∃ s ∈ detailSeeds, s.id = i) →
      ∃ s, detailLoad (.arr rs) i = some (.seed s) ∧ s.id = i ∧
        s ∈ detailSeeds) ∧
    ((∀ c ∈ userRecordsOf rs, c.id ≠ i) → (∀ s ∈ detailSeeds, s.id ≠ i) →
      detailLoad (.arr rs) i = none) := by
  refine ⟨?_, ?_, ?_⟩
  · rintro ⟨c, hc, hci⟩
    have hs : (List.find? (fun c => decide (c.id = i)) (userRecordsOf rs)).isSome := by
      rw [List.find?_isSome]
      exact ⟨c, hc, by simpa using hci⟩
    obtain ⟨c0, hc0⟩ := Option.isSome_iff_exists.mp hs
    refine ⟨c0, ?_, ?_, List.mem_of_find?_eq_some hc0⟩
    · show resolveDetail (userRecordsOf rs) i = some (.user c0)
      unfold resolveDetail
      rw [hc0]
    · simpa using List.find?_some hc0
  · intro hnone hseed
    have hu : List.find? (fun c => decide (c.id = i)) (userRecordsOf rs) = none := by
      rw [List.find?_eq_none]
      intro c hc
      simpa using hnone c hc
    obtain ⟨s, hs, hsi⟩ := hseed
    have hss : (List.find? (fun s => decide (s.id = i)) detailSeeds).isSome := by
      rw [List.find?_isSome]
      exact ⟨s, hs, by simpa using hsi⟩
    obtain ⟨s0, hs0⟩ := Option.isSome_iff_exists.mp hss
    refine ⟨s0, ?_, ?_, List.mem_of_find?_eq_some hs0⟩
    · show resolveDetail (userRecordsOf rs) i = some (.seed s0)
      unfold resolveDetail
      rw [hu, hs0]
    · simpa using List.find?_some hs0
  · intro hnu hns
    have hu : List.find? (fun c => decide (c.id = i)) (userRecordsOf rs) = none := by
      rw [List.find?_eq_none]
      intro c hc
      simpa using hnu c hc
    have hs : List.find? (fun s => decide (s.id = i)) detailSeeds = none := by
      rw [List.find?_eq_none]
      intro s hsm
      simpa using hns s hsm
    show resolveDetail (userRecordsOf rs) i = none
    unfold resolveDetail
    rw [hu, hs]

/-- C3 witness: a concrete store holding one record with id "7" resolves
to that user record for id "7", and an id found nowhere resolves to
"not found". -/
theorem detail_resolution_spot :
    (∃ c, detailLoad (.arr [⟨"7", "T", "D", .Rare, "u", some [], "pending", "t0"⟩]) "7" =
        some (.user c) ∧ c.id = "7" ∧
        c ∈ userRecordsOf [⟨"7", "T", "D", .Rare, "u", some [], "pending", "t0"⟩]) ∧
    detailLoad (.arr []) "zzz" = none :=
  ⟨(detail_resolution [⟨"7", "T", "D", .Rare, "u", some [], "pending", "t0"⟩] "7").1
      (by decide),
   (detail_resolution [] "zzz").2.2 (by decide) (by decide)⟩

/-- The form state in ContributorDashboardScreen: `title`/`description`
are plain strings, `rarity` and `imageUri` start as null, `extraImages`
holds the optional card images. -/
structure FormState where
  title : String
  description : String
  rarity : Option Rarity
  imageUri : Option String
  extraImages : List String
deriving DecidableEq, Repr

/-- JavaScript's `String.prototype.trim`: strip whitespace from both ends,
modelled structurally over the character list. -/
def jsTrim (s : String) : String :=
  ⟨((s.data.dropWhile Char.isWhitespace).reverse.dropWhile
      Char.isWhitespace).reverse⟩

/-- JavaScript truthiness of a `string | null` value: null and the empty
string are falsy. -/
def jsBlankOpt : Option String → Bool
  | none => true
  | some s => decide (s = "")

/-- The guard at the top of `handleSubmit`:
`!title.trim() || !description.trim() || !rarity || !imageUri`. -/
def submitBlocked (f : FormState) : Bool :=
  decide (jsTrim f.title = "") || decide (jsTrim f.description = "") ||
    f.rarity.isNone || jsBlankOpt f.imageUri

/-- `handleSubmit`: on a blocked form, alert and return with the store
untouched; otherwise build the new record (id from `Date.now()`, trimmed
title and description, status "pending", `createdAt` from the same
instant), prepend it to the loaded list, and persist the whole sequence. -/
def handleSubmit (f : FormState) (nowMs : Nat) (nowIso : String)
    (loaded : List StoredRecord) (blob : StoredBlob) :
    Option StoredRecord × StoredBlob :=
  if submitBlocked f then (none, blob)
  else
    match f.rarity, f.imageUri with
    | some r, some uri =>
      let c : StoredRecord :=
        ⟨toString nowMs, jsTrim f.title, jsTrim f.description, r, uri,
         some f.extraImages, "pending", nowIso⟩
      (some c, .arr (c :: loaded))
    | _, _ => (none, blob)

/-- C4: a submission with a blank (after trimming) title or description, no
selected rarity, or a missing or blank cover image is rejected and leaves
the persisted blob unchanged; the guard is exactly that field-wise
condition, and a form passing it submits even with no card images. -/
theorem submit_validation (f : FormState) (nowMs : Nat) (nowIso : String)
    (loaded : List StoredRecord) (blob : StoredBlob) :
    (submitBlocked f = true →
      handleSubmit f nowMs nowIso loaded blob = (none, blob)) ∧
    (submitBlocked f = true ↔
      (jsTrim f.title = "" ∨ jsTrim f.description = "" ∨ f.rarity = none ∨
        f.imageUri = none ∨ f.imageUri = some "")) ∧
    (f.extraImages = [] → submitBlocked f = false →
      (handleSubmit f nowMs nowIso loaded blob).1.isSome = true) := by
  refine ⟨?_, ?_, ?_⟩
  · intro h
    simp [handleSubmit, h]
  · cases hu : f.imageUri with
    | none =>
      simp [submitBlocked, jsBlankOpt, hu, Option.isNone_iff_eq_none]
    | some s =>
      simp [submitBlocked, jsBlankOpt, hu, Option.isNone_iff_eq_none]
      tauto
  · intro _ hnb
    cases hr : f.rarity with
    | none => simp [submitBlocked, hr] at hnb
    | some r =>
      cases hu : f.imageUri with
      | none => simp [submitBlocked, jsBlankOpt, hu] at hnb
      | some uri => simp [handleSubmit, hnb, hr, hu]

/-- C4 witness: a concrete form with a whitespace-only title is rejected
with the store unchanged, the guard agrees with the field-wise condition,
and a concrete valid form with zero card images goes through. -/
theorem submit_validation_spot :
    handleSubmit ⟨"  ", "D", some .Rare, some "u", []⟩ 42 "iso" [] .absent =
      (none, .absent) ∧
    (submitBlocked ⟨"  ", "D", some .Rare, some "u", []⟩ = true ↔
      (jsTrim "  " = "" ∨ jsTrim "D" = "" ∨
        (some Rarity.Rare : Option Rarity) = none ∨
        (some "u" : Option String) = none ∨
        (some "u" : Option String) = some "")) ∧
    (handleSubmit ⟨"T", "D", some .Rare, some "u", []⟩ 42 "iso" [] .absent).1.isSome
      = true :=
  ⟨(submit_validation ⟨"  ", "D", some .Rare, some "u", []⟩ 42 "iso" [] .absent).1
      (by decide),
   (submit_validation ⟨"  ", "D", some .Rare, some "u", []⟩ 42 "iso" [] .absent).2.1,
   (submit_validation ⟨"T", "D", some .Rare, some "u", []⟩ 42 "iso" [] .absent).2.2
      rfl (by decide)⟩

/-- C5: a valid submission (non-blank trimmed title and description,
selected rarity, non-blank cover) produces exactly the record with id
`Date.now().toString()`, status "pending" and the form's card images, and
persists it prepended to the loaded sequence as the whole blob. -/
theorem submit_success (f : FormState) (nowMs : Nat) (nowIso : String)
    (loaded : List StoredRecord) (blob : StoredBlob) (r : Rarity) (uri : String)
    (hr : f.rarity = some r) (hu : f.imageUri = some uri)
    (ht : ¬jsTrim f.title = "") (hd : ¬jsTrim f.description = "")
    (hue : ¬uri = "") :
    handleSubmit f nowMs nowIso loaded blob =
      (some ⟨toString nowMs, jsTrim f.title, jsTrim f.description, r, uri,
          some f.extraImages, "pending", nowIso⟩,
       .arr (⟨toString nowMs, jsTrim f.title, jsTrim f.description, r, uri,
          some f.extraImages, "pending", nowIso⟩ :: loaded)) := by
  have hb : submitBlocked f = false := by
    simp [submitBlocked, jsBlankOpt, hr, hu, ht, hd, hue]
  simp [handleSubmit, hb, hr, hu]

/-- C5 witness: a concrete valid form submitted at time 42 yields the
record with id "42" prepended to a concrete loaded list. -/
theorem submit_success_spot :
    handleSubmit ⟨"T", "D", some .Epic, some "u", ["c1"]⟩ 42 "iso"
        [⟨"9", "Old", "od", .Common, "ou", none, "pending", "t9"⟩] .absent =
      (some ⟨toString 42, "T", "D", .Epic, "u", some ["c1"], "pending", "iso"⟩,
       .arr [⟨toString 42, "T", "D", .Epic, "u", some ["c1"], "pending", "iso"⟩,
             ⟨"9", "Old", "od", .Common, "ou", none, "pending", "t9"⟩]) :=
  submit_success ⟨"T", "D", some .Epic, some "u", ["c1"]⟩ 42 "iso"
    [⟨"9", "Old", "od", .Common, "ou", none, "pending", "t9"⟩] .absent
    .Epic "u" rfl rfl (by decide) (by decide) (by decide)

/-- `handleDelete` in my-collections.tsx:
`collections.filter(c => c.id !== id)`, then the result is persisted. -/
def handleDelete (collections : List SubmittedCollection) (i : String) :
    List SubmittedCollection :=
  collections.filter (fun c => !decide (c.id = i))

/-- C6 counterexample: with two records sharing id "9" (the id scheme is
timestamp-based, so collisions are admitted), deleting "9" removes both,
so the result has length n-2, not n-1 as the claim states. -/
theorem delete_length_counterexample :
    ¬((∃ c ∈ ([⟨"9", "T1", "D1", .Common, "u1", [], "pending", "t1"⟩,
               ⟨"9", "T2", "D2", .Rare, "u2", [], "pending", "t2"⟩] :
            List SubmittedCollection), c.id = "9") →
      (handleDelete
          [⟨"9", "T1", "D1", .Common, "u1", [], "pending", "t1"⟩,
           ⟨"9", "T2", "D2", .Rare, "u2", [], "pending", "t2"⟩] "9").length =
        ([⟨"9", "T1", "D1", .Common, "u1", [], "pending", "t1"⟩,
          ⟨"9", "T2", "D2", .Rare, "u2", [], "pending", "t2"⟩] :
            List SubmittedCollection).length - 1) := by
  decide

/-- C6 as amended: delete removes every record whose id equals the target,
so the result contains no element with that id and has length n minus the
number of matching records (hence n-1 exactly when one record matches);
deleting an id matched by no record leaves the sequence unchanged. -/
theorem delete_by_id (l : List SubmittedCollection) (i : String) :
    (∀ c ∈ handleDelete l i, c.id ≠ i) ∧
    (handleDelete l i).length =
      l.length - l.countP (fun c => decide (c.id = i)) ∧
    ((∀ c ∈ l, c.id ≠ i) → handleDelete l i = l) ∧
    (l.countP (fun c => decide (c.id = i)) = 1 →
      (handleDelete l i).length = l.length - 1) := by
  have hlen : (handleDelete l i).length =
      l.length - l.countP (fun c => decide (c.id = i)) := by
    induction l with
    | nil => rfl
    | cons a t ih =>
      by_cases ha : a.id = i
      · have hcount := List.countP_le_length (l := t)
          (p := fun c => decide (c.id = i))
        simp [handleDelete, List.countP_cons, ha] at ih ⊢
        omega
      · have hcount := List.countP_le_length (l := t)
          (p := fun c => decide (c.id = i))
        simp [handleDelete, List.countP_cons, ha] at ih ⊢
        omega
  refine ⟨?_, hlen, ?_, ?_⟩
  · intro c hc
    have := (List.mem_filter.mp hc).2
    simpa using this
  · intro h
    apply List.filter_eq_self.mpr
    intro c hc
    simpa using h c hc
  · intro h1
    rw [hlen, h1]

/-- C6 witness for the amended statement: evaluated on a concrete
two-record list holding one record with id "8" and one with id "9". -/
theorem delete_by_id_spot :
    (∀ c ∈ handleDelete
        [⟨"8", "T1", "D1", .Common, "u1", [], "pending", "t1"⟩,
         ⟨"9", "T2", "D2", .Rare, "u2", [], "pending", "t2"⟩] "9",
      c.id ≠ "9") ∧
    handleDelete
        [⟨"8", "T1", "D1", .Common, "u1", [], "pending", "t1"⟩,
         ⟨"9", "T2", "D2", .Rare, "u2", [], "pending", "t2"⟩] "7" =
      [⟨"8", "T1", "D1", .Common, "u1", [], "pending", "t1"⟩,
       ⟨"9", "T2", "D2", .Rare, "u2", [], "pending", "t2"⟩] ∧
    (handleDelete
        [⟨"8", "T1", "D1", .Common, "u1", [], "pending", "t1"⟩,
         ⟨"9", "T2", "D2", .Rare, "u2", [], "pending", "t2"⟩] "9").length =
      2 - 1 :=
  ⟨(delete_by_id
      [⟨"8", "T1", "D1", .Common, "u1", [], "pending", "t1"⟩,
       ⟨"9", "T2", "D2", .Rare, "u2", [], "pending", "t2"⟩] "9").1,
   (delete_by_id
      [⟨"8", "T1", "D1", .Common, "u1", [], "pending", "t1"⟩,
       ⟨"9", "T2", "D2", .Rare, "u2", [], "pending", "t2"⟩] "7").2.2.1
      (by decide),
   (delete_by_id
      [⟨"8", "T1", "D1", .Common, "u1", [], "pending", "t1"⟩,
       ⟨"9", "T2", "D2", .Rare, "u2", [], "pending", "t2"⟩] "9").2.2.2
      (by decide)⟩

/-- The load effect of the edit route's screen
(src/app/edit-collection/[id].tsx): the file is a duplicate of the detail
viewer, resolving the id through the same two-tier lookup. -/
def editScreenLoad : StoredBlob → String → Option LoadedCollection
  | .absent, i => resolveDetail [] i
  | .malformed, _ => none
  | .nonArray, _ => none
  | .arr rs, i => resolveDetail (userRecordsOf rs) i

/-- The edit screen's whole effect on the persisted blob: the file
contains no `AsyncStorage.setItem` call, no form state and no save
handler, so visiting it displays the resolved record and leaves the store
exactly as it was. -/
def editScreenVisit (b : StoredBlob) (i : String) :
    Option LoadedCollection × StoredBlob :=
  (editScreenLoad b i, b)

/-- C7: evaluated at a store holding the record with id "100" and an edit
navigation to that id, the edit route renders the record read-only and the
persisted blob is returned unchanged — no save path exists that could
replace the record. -/
theorem edit_screen_no_save :
    editScreenVisit
        (.arr [⟨"100", "Mine", "Desc", .Rare, "cover", some ["a"], "pending", "t0"⟩])
        "100" =
      (some (.user ⟨"100", "Mine", "Desc", .Rare, "cover", ["a"], "pending", "t0"⟩),
       .arr [⟨"100", "Mine", "Desc", .Rare, "cover", some ["a"], "pending", "t0"⟩]) := by
  rfl

/-- C8 counterexample: the detail screen does not recover from a
deserialization failure by treating the store as empty — its catch block
skips the seed fallback, so the seed id "1" resolves to "not found" on a
malformed blob, while the same lookup over an absent key (genuinely empty
data) finds the seed record. -/
theorem detail_malformed_not_empty :
    detailLoad .malformed "1" = none ∧
    detailLoad (.arr []) "1" =
      some (.seed ⟨"1", "Neon City Dreams", "ArtByNova", .Epic,
        "Cyberpunk cityscapes and neon characters.",
        "https://images.pexels.com/photos/3404200/pexels-photo-3404200.jpeg?auto=compress&cs=tinysrgb&w=800",
        12⟩) ∧
    detailLoad .malformed "1" ≠ detailLoad (.arr []) "1" := by
  refine ⟨rfl, rfl, ?_⟩
  decide

/-- C8 as amended: the three list screens treat an absent key, a malformed
blob and a non-array value as the empty sequence; the detail and edit
screens treat an absent key as the empty user sequence (falling through to
the seed lookup) but map a malformed or non-array blob to the "not found"
state without consulting seed data; no load failure is fatal. -/
theorem load_failure_soft (i : String) :
    loadCollections .absent = [] ∧ loadCollections .malformed = [] ∧
    loadCollections .nonArray = [] ∧
    loadSubmitted .absent = [] ∧ loadSubmitted .malformed = [] ∧
    loadSubmitted .nonArray = [] ∧
    loadUserCollections .absent = [] ∧ loadUserCollections .malformed = [] ∧
    loadUserCollections .nonArray = [] ∧
    detailLoad .absent i = resolveDetail [] i ∧
    detailLoad .malformed i = none ∧ detailLoad .nonArray i = none ∧
    editScreenLoad .absent i = resolveDetail [] i ∧
    editScreenLoad .malformed i = none ∧ editScreenLoad .nonArray i = none :=
  ⟨rfl, rfl, rfl, rfl, rfl, rfl, rfl, rfl, rfl, rfl, rfl, rfl, rfl, rfl, rfl⟩

/-- C9 counterexample: the contributor dashboard's loader hands back the
parsed records unchanged, so a legacy record stored without an `images`
array survives the load with the field still missing — that screen does
not coerce it to the empty sequence. -/
theorem contributor_load_no_coercion :
    loadSubmitted (.arr [⟨"5", "T", "D", .Common, "u", none, "pending", "t0"⟩]) =
      [⟨"5", "T", "D", .Common, "u", none, "pending", "t0"⟩] ∧
    (loadSubmitted
        (.arr [⟨"5", "T", "D", .Common, "u", none, "pending", "t0"⟩])).all
      (fun r => r.images.isSome) = false :=
  ⟨rfl, rfl⟩

/-- C9 as amended: the my-collections screen and the detail/edit screens
normalise every loaded record through the `images` coercion (absent maps
to the empty sequence), the marketplace screen maps records to display
entries that carry no `images` field at all, and the contributor dashboard
passes the stored records through uncoerced. -/
theorem images_coercion_by_screen (rs : List StoredRecord) (i : String) :
    loadCollections (.arr rs) = rs.map decodeRecord ∧
    (∀ r : StoredRecord, (decodeRecord r).images = r.images.getD []) ∧
    detailLoad (.arr rs) i = resolveDetail (rs.map decodeRecord) i ∧
    editScreenLoad (.arr rs) i = resolveDetail (rs.map decodeRecord) i ∧
    loadUserCollections (.arr rs) = rs.map toMarketCard ∧
    loadSubmitted (.arr rs) = rs :=
  ⟨rfl, fun _ => rfl, rfl, rfl, rfl, rfl⟩

/-- C10: the marketplace list maps every stored submission to a display
record with creator "You" and item count 1 whatever its card images hold,
carrying id, title, rarity, description (as the theme) and cover image
(as the image URL) through unchanged. -/
theorem marketplace_user_mapping (rs : List StoredRecord) :
    loadUserCollections (.arr rs) =
      rs.map (fun c =>
        ⟨c.id, c.title, "You", c.rarity, 1, c.description, c.imageUri⟩) ∧
    ∀ c ∈ loadUserCollections (.arr rs), c.creator = "You" ∧ c.items = 1 := by
  refine ⟨rfl, ?_⟩
  intro c hc
  simp only [loadUserCollections, List.mem_map] at hc
  obtain ⟨r, -, rfl⟩ := hc
  exact ⟨rfl, rfl⟩

/-- C10 witness: the mapping evaluated on a concrete stored record with
three card images still yields creator "You" and item count 1. -/
theorem marketplace_user_mapping_spot :
    loadUserCollections
        (.arr [⟨"6", "T", "D", .Epic, "u", some ["a", "b", "c"], "pending", "t0"⟩]) =
      [⟨"6", "T", "You", .Epic, 1, "D", "u"⟩] ∧
    ∀ c ∈ loadUserCollections
        (.arr [⟨"6", "T", "D", .Epic, "u", some ["a", "b", "c"], "pending", "t0"⟩]),
      c.creator = "You" ∧ c.items = 1 :=
  ⟨(marketplace_user_mapping
      [⟨"6", "T", "D", .Epic, "u", some ["a", "b", "c"], "pending", "t0"⟩]).1,
   (marketplace_user_mapping
      [⟨"6", "T", "D", .Epic, "u", some ["a", "b", "c"], "pending", "t0"⟩]).2⟩

end PopArt
